import Mathlib

/-!
Verification of `streamlit-multipage` (`src/streamlit_multipage/multipage.py`).

The module has two components: `StateManager`, a flat-file key/value store
keyed by namespace (persisted with pickle/joblib into a single cache file),
and `MultiPage`, a page router holding an ordered list of named page
functions and dispatching on a stored integer "current page" index.

Shallow embedding conventions:

* Python values that flow through the store are modeled by `Val`
  (ints, strings, bools, None, and string-keyed dicts).  All keys used by
  the code are strings (the public API annotates `Dict[str, Any]`).
* Python dicts are association lists (`Dict`); `dset` is `d[k] = v`
  (replace in place, else append, matching insertion-order semantics),
  `dupdate` is `d.update(e)`, `derase` is `del d[k]` on a present key.
* The pickled cache file is `FileContent`: `absent` (no file), `emptyFile`
  (exists, unpickling raises `EOFError`), `corrupt` (exists, unpickling
  raises a non-EOF error such as `UnpicklingError`), or `stored d`
  (unpickles to the mapping `d`).  Every file this code writes is produced
  by `_save(data)` where `data` originated from `load()`'s
  `defaultdict(dict)`, so the top-level mapping has `defaultdict(dict)`
  subscript semantics: `load()["global"]` yields `{}` when missing.  That
  is the one place the code subscripts the top level without a guard, and
  it is modeled by `Option.getD (.vdict [])` in `read_current_page`.
* Raised exceptions are `Except PyErr`; fallible Python operations
  (`in`, `del`, subscription, `.update`, `int(...)`) are `py*` helpers
  that return `Except`.
* Aliasing of the shared `variables` object across namespaces in `save`
  only duplicates equal values inside one call, so the resulting file
  contents are value-faithful; the model uses value semantics.
-/

/-- A Python value as stored in the cache: int, str, bool, None, or a
string-keyed dict. -/
inductive Val where
  | vint : Int → Val
  | vstr : String → Val
  | vbool : Bool → Val
  | vnone : Val
  | vdict : List (String × Val) → Val

/-- A Python dict with string keys, as an insertion-ordered association list. -/
abbrev Dict := List (String × Val)

/-- A raised Python exception, by class. -/
inductive PyErr where
  | keyError
  | typeError
  | attributeError
  | valueError
  | indexError
  | eofError
  | unpicklingError
  | fileNotFoundError
deriving DecidableEq

/-- The state of the pickle cache file on disk. -/
inductive FileContent where
  | absent
  | emptyFile
  | corrupt
  | stored : Dict → FileContent

/-- Python `d[k]` lookup on a dict (first occurrence). -/
def dget? : Dict → String → Option Val
  | [], _ => none
  | (k2, v2) :: rest, k => if k2 = k then some v2 else dget? rest k

/-- Python `d[k] = v`: replace the entry in place if present, else append. -/
def dset : Dict → String → Val → Dict
  | [], k, v => [(k, v)]
  | (k2, v2) :: rest, k, v =>
      if k2 = k then (k, v) :: rest else (k2, v2) :: dset rest k v

/-- Python `d.update(e)` for a dict argument `e`. -/
def dupdate (d e : Dict) : Dict :=
  e.foldl (fun acc p => dset acc p.1 p.2) d

/-- Python `del d[k]` when `k` is present; identity when absent (the code
always wraps `del` of a possibly-missing key in `try/except KeyError`). -/
def derase : Dict → String → Dict
  | [], _ => []
  | (k2, v2) :: rest, k => if k2 = k then rest else (k2, v2) :: derase rest k

/-- The keys of a dict, in order. -/
def dkeys (d : Dict) : List String := d.map Prod.fst

/-- The keys of a dict are pairwise distinct (true of every real Python dict). -/
def nodupKeys (d : Dict) : Prop := (dkeys d).Nodup

instance (d : Dict) : Decidable (nodupKeys d) := by
  unfold nodupKeys; infer_instance

/-- Lookup of key `k` inside the dict bound at namespace `ns`, `none` when the
namespace is missing or not a dict. -/
def dget2 (d : Dict) (ns k : String) : Option Val :=
  match dget? d ns with
  | some (.vdict m) => dget? m k
  | _ => none

/-- Whether a value is a dict. -/
def Val.isDict : Val → Bool
  | .vdict _ => true
  | _ => false

/-- Whether an optional value is absent or a dict (the shape `save` requires
of an existing namespace entry before calling `.update` on it). -/
def optIsDictOrNone : Option Val → Bool
  | none => true
  | some v => v.isDict

/-- Whether `d` binds key `k` to a dict. -/
def isDictAt (d : Dict) (k : String) : Bool :=
  match dget? d k with
  | some (.vdict _) => true
  | _ => false

/-- Every top-level value of `d` is a dict (the spec's data-model shape). -/
def allValuesDicts (d : Dict) : Bool :=
  d.all fun p => p.2.isDict

/-- No key of `vks` occurs in any dict-valued top-level entry of `data`. -/
def varAbsentAll (data : Dict) (vks : List String) : Bool :=
  data.all fun p =>
    match p.2 with
    | .vdict m => vks.all fun v => (dget? m v).isNone
    | _ => true

/-- `needle` is a leading segment of `hay` (character lists). -/
def charListStarts : List Char → List Char → Bool
  | [], _ => true
  | _ :: _, [] => false
  | a :: as, b :: bs => a == b && charListStarts as bs

/-- `needle` occurs contiguously inside `hay` (character lists). -/
def charListInside (needle : List Char) : List Char → Bool
  | [] => charListStarts needle []
  | c :: rest => charListStarts needle (c :: rest) || charListInside needle rest

/-- Python `needle in hay` for strings: contiguous substring test. -/
def strContains (hay needle : String) : Bool :=
  charListInside needle.toList hay.toList

/-- Python `k in v`: key test on dicts, substring test on strings, and
`TypeError` on non-iterable values such as ints and None. -/
def pyContains (v : Val) (k : String) : Except PyErr Bool :=
  match v with
  | .vdict d => .ok (dget? d k).isSome
  | .vstr s => .ok (strContains s k)
  | _ => .error .typeError

/-- Python `v[k]` on a plain (non-default) dict value: `KeyError` when the key
is missing, `TypeError` when `v` is not subscriptable by a string. -/
def pyGetItem (v : Val) (k : String) : Except PyErr Val :=
  match v with
  | .vdict m =>
      match dget? m k with
      | some x => .ok x
      | none => .error .keyError
  | _ => .error .typeError

/-- Python `int(v)`. -/
def pyInt (v : Val) : Except PyErr Int :=
  match v with
  | .vint n => .ok n
  | .vbool b => .ok (if b then 1 else 0)
  | .vstr s =>
      match s.toInt? with
      | some n => .ok n
      | none => .error .valueError
  | _ => .error .typeError

/-- The effective index of Python list subscription: negative indices count
from the end. -/
def pyNormIdx {α : Type} (xs : List α) (i : Int) : Int :=
  if i < 0 then i + xs.length else i

/-- Python list subscription `xs[i]` with negative-index wrap-around and
`IndexError` out of range. -/
def pyListGet {α : Type} (xs : List α) (i : Int) : Except PyErr α :=
  if pyNormIdx xs i < 0 then .error .indexError
  else
    match xs.get? (pyNormIdx xs i).toNat with
    | some a => .ok a
    | none => .error .indexError

/-- Python truthiness of the `variables : Dict[str, Any] = None` parameter. -/
def optTruthyD : Option Dict → Bool
  | none => false
  | some [] => false
  | some (_ :: _) => true

/-- Python truthiness of the `namespaces : List[str] = None` parameter. -/
def optTruthyL : Option (List String) → Bool
  | none => false
  | some [] => false
  | some (_ :: _) => true

/-- Distinct elements of `l` in order of first occurrence, matching the
iteration order of the dict comprehension `{ns: variables for ns in namespaces}`
in `StateManager.save`. -/
def dedupFirstAux (seen : List String) : List String → List String
  | [] => []
  | x :: xs =>
      if x ∈ seen then dedupFirstAux seen xs
      else x :: dedupFirstAux (x :: seen) xs

/-- Distinct elements in order of first occurrence. -/
def dedupFirst (l : List String) : List String := dedupFirstAux [] l

/-- `StateManager._load`: `pickling.load(open(self.cache_file, 'rb'))` with
only `EOFError` caught (returning `defaultdict(dict)`, i.e. the empty
mapping); other unpickling failures propagate, and a missing file raises
`FileNotFoundError` from `open` (never reached: `load` checks existence). -/
def StateManager._load : FileContent → Except PyErr Dict
  | .absent => .error .fileNotFoundError
  | .emptyFile => .ok []
  | .corrupt => .error .unpicklingError
  | .stored d => .ok d

/-- `StateManager.load`: returns `defaultdict(dict)` when the cache file does
not exist, otherwise unpickles it and then executes
`if "global" in data: data.update(data["global"])` — copying every key/value
pair of the `"global"` namespace into the top level — before returning.
`update` of a non-dict `data["global"]` raises (`TypeError` for a
non-iterable, `ValueError` for a nonempty string of length-1 items; an empty
string updates nothing). -/
def StateManager.load (fc : FileContent) : Except PyErr Dict :=
  match fc with
  | .absent => .ok []
  | _ =>
      StateManager._load fc >>= fun data =>
      match dget? data "global" with
      | none => .ok data
      | some (.vdict g) => .ok (dupdate data g)
      | some (.vstr s) => if s.isEmpty then .ok data else .error .valueError
      | some _ => .error .typeError

/-- The `for namespace, variables in new_data.items()` loop of
`StateManager.save`: for each distinct namespace, `data[namespace].update(variables)`
when the namespace is present (an `AttributeError` when its value is not a
dict), else `data[namespace] = variables`. -/
def saveLoop (data vars : Dict) : List String → Except PyErr Dict
  | [] => .ok data
  | ns :: rest =>
      match dget? data ns with
      | some (.vdict cur) => saveLoop (dset data ns (.vdict (dupdate cur vars))) vars rest
      | some _ => .error .attributeError
      | none => saveLoop (dset data ns (.vdict vars)) vars rest

/-- `StateManager.save(variables, namespaces)`: returns immediately when
`variables` is falsy (None or empty); defaults `namespaces` to `["global"]`;
reloads the file, merges `variables` into each listed namespace, and persists
the result via `_save` (modeled as `FileContent.stored`; `_save` only
creates the cache directory and pickles `data`). -/
def StateManager.save (fc : FileContent) (vars : Option Dict)
    (namespaces : Option (List String)) : Except PyErr FileContent :=
  match vars with
  | none => .ok fc
  | some [] => .ok fc
  | some (v0 :: vrest) =>
      let nss := namespaces.getD ["global"]
      StateManager.load fc >>= fun data =>
      saveLoop data (v0 :: vrest) (dedupFirst nss) >>= fun data2 =>
      .ok (.stored data2)

/-- `StateManager.change_page(page)`: `save({"current_page": page}, ["global"])`. -/
def StateManager.change_page (fc : FileContent) (page : Int) : Except PyErr FileContent :=
  StateManager.save fc (some [("current_page", Val.vint page)]) (some ["global"])

/-- `StateManager.read_current_page`: `data = self.load()["global"]` (the
top level is a `defaultdict(dict)`, so a missing `"global"` yields `{}`),
then `int(data["current_page"])` when the key is present, else `0`. -/
def StateManager.read_current_page (fc : FileContent) : Except PyErr Int :=
  StateManager.load fc >>= fun data =>
  let g := (dget? data "global").getD (.vdict [])
  pyContains g "current_page" >>= fun b =>
  if b then pyGetItem g "current_page" >>= pyInt
  else .ok 0

/-- `StateManager.is_logged_in`:
`"username" in self.load().get('session', '') and "token" in self.load().get('session', '')`,
with Python short-circuit evaluation of `and`. -/
def StateManager.is_logged_in (fc : FileContent) : Except PyErr Bool :=
  StateManager.load fc >>= fun d1 =>
  pyContains ((dget? d1 "session").getD (.vstr "")) "username" >>= fun b1 =>
  if b1 then
    StateManager.load fc >>= fun d2 =>
    pyContains ((dget? d2 "session").getD (.vstr "")) "token"
  else .ok false

/-- The inner `for variable in variables: try: del data[namespace][variable]
except KeyError: ...` loop of `StateManager.clear_cache`.  Only `KeyError` is
caught; `del` on a non-dict value raises `TypeError`, which propagates.  A
missing namespace would be materialized as `{}` by the top-level
`defaultdict` (unreachable here since namespaces come from the data's own
keys). -/
def innerVarLoop (data : Dict) (ns : String) : List String → Except PyErr Dict
  | [] => .ok data
  | v :: vs =>
      match dget? data ns with
      | some (.vdict nd) => innerVarLoop (dset data ns (.vdict (derase nd v))) ns vs
      | some _ => .error .typeError
      | none => innerVarLoop (dset data ns (.vdict [])) ns vs

/-- The outer `for namespace in temp_data.keys()` loop of the
`elif variables:` branch of `StateManager.clear_cache`. -/
def clearVarsLoop (data : Dict) (vks : List String) : List String → Except PyErr Dict
  | [] => .ok data
  | ns :: rest =>
      innerVarLoop data ns vks >>= fun data2 =>
      clearVarsLoop data2 vks rest

/-- `StateManager.clear_cache(variables=, namespaces=, all_variables=)`:
reloads the file, deletes according to exactly one branch
(`if all_variables` / `elif namespaces and not variables` / `elif variables`),
persists the result with `_save`, and when `all_variables` additionally
unlinks the cache file (`cache_filename` is always truthy), leaving no file. -/
def StateManager.clear_cache (fc : FileContent) (vars : Option Dict)
    (namespaces : Option (List String)) (all_variables : Bool) :
    Except PyErr FileContent :=
  StateManager.load fc >>= fun data =>
  let temp := data
  (if all_variables then
    .ok ((dkeys temp).foldl derase data)
  else if optTruthyL namespaces && !(optTruthyD vars) then
    .ok ((namespaces.getD []).foldl derase data)
  else if optTruthyD vars then
    clearVarsLoop data (dkeys (vars.getD [])) (dkeys temp)
  else
    .ok data) >>= fun data2 =>
  if all_variables then .ok FileContent.absent
  else .ok (.stored data2)

/-- `App`: a registered page, a name plus an invocable.  The invocable is an
abstract value of type `F` (only its identity matters to the router). -/
structure App (F : Type) where
  name : String
  func : F

/-- The `MultiPage` router state relevant to page registration and dispatch:
the ordered page list (`__apps`) and the optional initial page
(`__initial_page`).  The remaining dataclass fields are presentation strings
and flags consumed only by the widget-rendering code. -/
structure MultiPage (F : Type) where
  apps : List (App F)
  initial_page : Option (App F)

/-- `MultiPage.add_app(name, func, initial_page=False)`: the first call with
`initial_page=True` (while `self.initial_page` is still None — an `App`
NamedTuple is always truthy) stores `App("__INITIALPAGE__", func)` via the
property setter and returns; every other call appends `App(name, func)`. -/
def MultiPage.add_app {F : Type} (mp : MultiPage F) (name : String) (func : F)
    (initial_page : Bool) : MultiPage F :=
  if initial_page && mp.initial_page.isNone then
    { mp with initial_page := some (App.mk "__INITIALPAGE__" func) }
  else
    { mp with apps := mp.apps ++ [App.mk name func] }

/-- Registering a list of pages through `add_app` without the
`initial_page` flag. -/
def addAppList {F : Type} (mp : MultiPage F) (calls : List (String × F)) :
    MultiPage F :=
  calls.foldl (fun m c => m.add_app c.1 c.2 false) mp

/-- The page-selection core of `MultiPage._run` on a run without widget
interactions and with the default button-style navbar (which mutates no
state): when not logged in it invokes `self.initial_page.func`
(`AttributeError` when no initial page was registered), otherwise it reads
the stored current page, resets it to 0 when `page >= len(self.apps)`, and
invokes `self.apps[page].func` (Python list indexing).  The returned `App`
is the page whose function is invoked; header/footer/sidebar rendering is
UI-only and omitted. -/
def MultiPage._run {F : Type} (mp : MultiPage F) (fc : FileContent) :
    Except PyErr (App F) :=
  StateManager.is_logged_in fc >>= fun li =>
  if li then
    StateManager.read_current_page fc >>= fun page =>
    let page2 : Int := if page ≥ (mp.apps.length : Int) then 0 else page
    pyListGet mp.apps page2
  else
    match mp.initial_page with
    | some a => .ok a
    | none => .error .attributeError

/-- `MultiPage.login(username, token)`: persists the two keys into the
`"session"` namespace, then `change_page(0)` (the trailing `st.rerun()` only
restarts the script). -/
def MultiPage.login (fc : FileContent) (username token : String) :
    Except PyErr FileContent :=
  StateManager.save fc
      (some [("username", Val.vstr username), ("token", Val.vstr token)])
      (some ["session"]) >>= fun fc2 =>
  StateManager.change_page fc2 0

/-- `save` followed by a fresh `load`, the round trip of claim C1. -/
def save_then_load (fc : FileContent) (vars : Option Dict)
    (namespaces : Option (List String)) : Except PyErr Dict :=
  StateManager.save fc vars namespaces >>= StateManager.load

/-- The dict written into a namespace by one pass of the `save` loop: the
existing dict updated with `vars`, or `vars` itself when the namespace is
absent (`data[namespace] = variables`). -/
def updOf (cur : Option Val) (vars : Dict) : Dict :=
  match cur with
  | some (.vdict m) => dupdate m vars
  | _ => vars

/-! ### Dictionary lemmas -/

/-- `dkeys` on a cons. -/
theorem dkeys_cons (p : String × Val) (d : Dict) : dkeys (p :: d) = p.1 :: dkeys d := rfl

/-- Lookup after `d[a] = v`. -/
theorem dget_dset (d : Dict) (a : String) (v : Val) (k : String) :
    dget? (dset d a v) k = if k = a then some v else dget? d k := by
  induction d with
  | nil =>
      simp only [dset, dget?]
      by_cases h : k = a
      · simp [h]
      · simp [h, Ne.symm h]
  | cons p rest ih =>
      obtain ⟨k2, v2⟩ := p
      by_cases h2 : k2 = a
      · subst h2
        simp only [dset, if_pos rfl, dget?]
        by_cases h : k = k2
        · simp [h]
        · simp [h, Ne.symm h]
      · simp only [dset, if_neg h2, dget?, ih]
        by_cases h3 : k2 = k
        · subst h3
          have hka : ¬ k2 = a := h2
          simp [hka]
        · simp [h3]

/-- A key outside `dkeys d` looks up to `none`. -/
theorem dget_eq_none_of_not_mem {d : Dict} {k : String} (h : k ∉ dkeys d) :
    dget? d k = none := by
  induction d with
  | nil => rfl
  | cons p rest ih =>
      obtain ⟨k2, v2⟩ := p
      rw [dkeys_cons, List.mem_cons] at h
      push_neg at h
      simp only [dget?]
      rw [if_neg (fun hh => h.1 (hh.symm)), ih h.2]

/-- Lookup succeeds exactly on the keys. -/
theorem isSome_dget_iff_mem {d : Dict} {k : String} :
    (dget? d k).isSome = true ↔ k ∈ dkeys d := by
  induction d with
  | nil => simp [dget?, dkeys]
  | cons p rest ih =>
      obtain ⟨k2, v2⟩ := p
      rw [dkeys_cons, List.mem_cons]
      simp only [dget?]
      by_cases h : k2 = k
      · subst h; simp
      · rw [if_neg h]
        simp [ih, Ne.symm h]

/-- A successful lookup returns an entry of the list. -/
theorem dget_mem {d : Dict} {k : String} {v : Val} (h : dget? d k = some v) :
    (k, v) ∈ d := by
  induction d with
  | nil => simp [dget?] at h
  | cons p rest ih =>
      obtain ⟨k2, v2⟩ := p
      simp only [dget?] at h
      by_cases h2 : k2 = k
      · subst h2
        rw [if_pos rfl] at h
        cases h
        exact List.mem_cons_self _ _
      · rw [if_neg h2] at h
        exact List.mem_cons_of_mem _ (ih h)

/-- Lookup after `d.update(e)` when `e` has distinct keys. -/
theorem dget_dupdate : ∀ (e : Dict), nodupKeys e → ∀ (d : Dict) (k : String),
    dget? (dupdate d e) k =
      match dget? e k with
      | some v => some v
      | none => dget? d k := by
  intro e
  induction e with
  | nil => intro _ d k; rfl
  | cons p rest ih =>
      intro he d k
      obtain ⟨k1, v1⟩ := p
      have hd : nodupKeys rest ∧ k1 ∉ dkeys rest := by
        unfold nodupKeys at he ⊢
        rw [dkeys_cons, List.nodup_cons] at he
        exact ⟨he.2, he.1⟩
      have hstep : dupdate d ((k1, v1) :: rest) = dupdate (dset d k1 v1) rest := rfl
      rw [hstep, ih hd.1]
      by_cases h : k1 = k
      · subst h
        rw [dget_eq_none_of_not_mem hd.2]
        simp [dget?, dget_dset]
      · cases hr : dget? rest k with
        | some v => simp [dget?, h, hr]
        | none => simp [dget?, h, hr, dget_dset, Ne.symm h]

/-- `d.update(e)` does not touch keys outside `e`. -/
theorem dget_dupdate_not_mem : ∀ (e : Dict) (k : String), k ∉ dkeys e →
    ∀ (d : Dict), dget? (dupdate d e) k = dget? d k := by
  intro e
  induction e with
  | nil => intro k _ d; rfl
  | cons p rest ih =>
      intro k hk d
      rw [dkeys_cons, List.mem_cons] at hk
      push_neg at hk
      have hstep : dupdate d (p :: rest) = dupdate (dset d p.1 p.2) rest := rfl
      rw [hstep, ih k hk.2, dget_dset, if_neg hk.1]

/-- Keys after `d[a] = v` come from `d` or are `a`. -/
theorem mem_dkeys_dset {d : Dict} {a : String} {v : Val} {k : String} :
    k ∈ dkeys (dset d a v) → k ∈ dkeys d ∨ k = a := by
  induction d with
  | nil =>
      intro h
      simp [dset, dkeys] at h
      exact Or.inr h
  | cons p rest ih =>
      obtain ⟨k2, v2⟩ := p
      intro h
      by_cases h2 : k2 = a
      · subst h2
        simp only [dset, if_pos rfl, if_true, dkeys_cons, List.mem_cons] at h
        rcases h with h | h
        · exact Or.inr h
        · exact Or.inl (by rw [dkeys_cons]; exact List.mem_cons_of_mem _ h)
      · simp only [dset, if_neg h2, dkeys_cons, List.mem_cons] at h
        rcases h with h | h
        · exact Or.inl (by rw [dkeys_cons, List.mem_cons]; exact Or.inl h)
        · rcases ih h with h3 | h3
          · exact Or.inl (by rw [dkeys_cons, List.mem_cons]; exact Or.inr h3)
          · exact Or.inr h3

/-- Keys after `d.update(e)` come from `d` or `e`. -/
theorem mem_dkeys_dupdate : ∀ (e d : Dict) (k : String),
    k ∈ dkeys (dupdate d e) → k ∈ dkeys d ∨ k ∈ dkeys e := by
  intro e
  induction e with
  | nil => intro d k h; exact Or.inl h
  | cons p rest ih =>
      intro d k h
      have hstep : dupdate d (p :: rest) = dupdate (dset d p.1 p.2) rest := rfl
      rw [hstep] at h
      rcases ih (dset d p.1 p.2) k h with h2 | h2
      · rcases mem_dkeys_dset h2 with h3 | h3
        · exact Or.inl h3
        · exact Or.inr (by rw [dkeys_cons, List.mem_cons]; exact Or.inl h3)
      · exact Or.inr (by rw [dkeys_cons, List.mem_cons]; exact Or.inr h2)

/-- Deleting an absent key is the identity. -/
theorem derase_noop {d : Dict} {k : String} (h : dget? d k = none) :
    derase d k = d := by
  induction d with
  | nil => rfl
  | cons p rest ih =>
      obtain ⟨k2, v2⟩ := p
      simp only [dget?] at h
      by_cases h2 : k2 = k
      · rw [if_pos h2] at h; cases h
      · rw [if_neg h2] at h
        simp only [derase, if_neg h2, ih h]

/-- Rewriting a key to the value it already has is the identity. -/
theorem dset_self {d : Dict} {k : String} {v : Val} (h : dget? d k = some v) :
    dset d k v = d := by
  induction d with
  | nil => simp [dget?] at h
  | cons p rest ih =>
      obtain ⟨k2, v2⟩ := p
      simp only [dget?] at h
      by_cases h2 : k2 = k
      · subst h2
        rw [if_pos rfl] at h
        cases h
        simp [dset]
      · rw [if_neg h2] at h
        simp only [dset, if_neg h2, ih h]

/-- Folding `derase` over absent keys changes nothing. -/
theorem foldl_derase_noop : ∀ (l : List String) (d : Dict),
    (∀ n ∈ l, dget? d n = none) → l.foldl derase d = d := by
  intro l
  induction l with
  | nil => intro d _; rfl
  | cons n rest ih =>
      intro d h
      have h1 : derase d n = d := derase_noop (h n (List.mem_cons_self n rest))
      simp only [List.foldl_cons, h1]
      exact ih d (fun x hx => h x (List.mem_cons_of_mem _ hx))

/-- Membership in `dedupFirstAux`. -/
theorem dedupFirstAux_mem : ∀ (l seen : List String) (a : String),
    a ∈ dedupFirstAux seen l ↔ a ∈ l ∧ a ∉ seen := by
  intro l
  induction l with
  | nil => intro seen a; simp [dedupFirstAux]
  | cons x xs ih =>
      intro seen a
      by_cases hx : x ∈ seen
      · rw [show dedupFirstAux seen (x :: xs) = dedupFirstAux seen xs from by
          simp [dedupFirstAux, hx]]
        rw [ih]
        constructor
        · rintro ⟨h1, h2⟩
          exact ⟨List.mem_cons_of_mem _ h1, h2⟩
        · rintro ⟨h1, h2⟩
          rcases List.mem_cons.mp h1 with h3 | h3
          · exact absurd (h3 ▸ hx) h2
          · exact ⟨h3, h2⟩
      · rw [show dedupFirstAux seen (x :: xs) = x :: dedupFirstAux (x :: seen) xs from by
          simp [dedupFirstAux, hx]]
        rw [List.mem_cons, ih]
        constructor
        · rintro (h1 | ⟨h1, h2⟩)
          · exact ⟨h1 ▸ List.mem_cons_self x xs, h1 ▸ hx⟩
          · refine ⟨List.mem_cons_of_mem _ h1, fun hc => h2 (List.mem_cons_of_mem _ hc)⟩
        · rintro ⟨h1, h2⟩
          by_cases ha : a = x
          · exact Or.inl ha
          · rcases List.mem_cons.mp h1 with h3 | h3
            · exact absurd h3 ha
            · refine Or.inr ⟨h3, fun hc => ?_⟩
              rcases List.mem_cons.mp hc with h4 | h4
              · exact ha h4
              · exact h2 h4

/-- `dedupFirst` preserves membership. -/
theorem dedupFirst_mem (l : List String) (a : String) :
    a ∈ dedupFirst l ↔ a ∈ l := by
  unfold dedupFirst
  rw [dedupFirstAux_mem]
  simp

/-- `dedupFirstAux` produces distinct elements. -/
theorem dedupFirstAux_nodup : ∀ (l seen : List String),
    (dedupFirstAux seen l).Nodup := by
  intro l
  induction l with
  | nil => intro seen; simp [dedupFirstAux]
  | cons x xs ih =>
      intro seen
      by_cases hx : x ∈ seen
      · simpa [dedupFirstAux, hx] using ih seen
      · rw [show dedupFirstAux seen (x :: xs) = x :: dedupFirstAux (x :: seen) xs from by
          simp [dedupFirstAux, hx]]
        rw [List.nodup_cons]
        refine ⟨fun hmem => ?_, ih (x :: seen)⟩
        rw [dedupFirstAux_mem] at hmem
        exact hmem.2 (List.mem_cons_self x seen)

/-- `dedupFirst` produces distinct elements. -/
theorem dedupFirst_nodup (l : List String) : (dedupFirst l).Nodup :=
  dedupFirstAux_nodup l []

/-! ### `StateManager` lemmas -/

/-- `load` on a stored mapping whose `"global"` entry is a dict (or absent,
with `g = []`): the result is the mapping updated with the `"global"`
entries. -/
theorem load_stored {d g : Dict}
    (hg : dget? d "global" = some (.vdict g) ∨ (dget? d "global" = none ∧ g = [])) :
    StateManager.load (.stored d) = .ok (dupdate d g) := by
  rcases hg with h | ⟨h, rfl⟩
  · simp [StateManager.load, StateManager._load, Bind.bind, Except.bind, h]
  · simp [StateManager.load, StateManager._load, Bind.bind, Except.bind, h, dupdate]

/-- The merge loop of `save` over distinct namespaces whose current entries
are absent or dicts: it succeeds, writing `updOf` of the old entry into every
listed namespace and leaving all other keys unchanged. -/
theorem saveLoop_ok (vars : Dict) : ∀ (l : List String) (data : Dict), l.Nodup →
    (∀ n ∈ l, optIsDictOrNone (dget? data n) = true) →
    ∃ d2, saveLoop data vars l = .ok d2 ∧
      ∀ k, dget? d2 k =
        if k ∈ l then some (.vdict (updOf (dget? data k) vars))
        else dget? data k := by
  intro l
  induction l with
  | nil =>
      intro data _ _
      exact ⟨data, rfl, by intro k; simp⟩
  | cons ns rest ih =>
      intro data hnd hok
      have hns := hok ns (List.mem_cons_self ns rest)
      have hnd2 : rest.Nodup := (List.nodup_cons.mp hnd).2
      have hnotin : ns ∉ rest := (List.nodup_cons.mp hnd).1
      have hstep : saveLoop data vars (ns :: rest) =
          saveLoop (dset data ns (.vdict (updOf (dget? data ns) vars))) vars rest := by
        cases hcur : dget? data ns with
        | none => simp [saveLoop, hcur, updOf]
        | some v =>
            cases v with
            | vdict m => simp [saveLoop, hcur, updOf]
            | vint n => rw [hcur] at hns; simp [optIsDictOrNone, Val.isDict] at hns
            | vstr s => rw [hcur] at hns; simp [optIsDictOrNone, Val.isDict] at hns
            | vbool b => rw [hcur] at hns; simp [optIsDictOrNone, Val.isDict] at hns
            | vnone => rw [hcur] at hns; simp [optIsDictOrNone, Val.isDict] at hns
      have hok2 : ∀ n ∈ rest,
          optIsDictOrNone (dget? (dset data ns (.vdict (updOf (dget? data ns) vars))) n) = true := by
        intro n hn
        have hne : ¬ n = ns := fun hh => hnotin (hh ▸ hn)
        rw [dget_dset, if_neg hne]
        exact hok n (List.mem_cons_of_mem ns hn)
      obtain ⟨d2, hrun, hlook⟩ := ih (dset data ns (.vdict (updOf (dget? data ns) vars))) hnd2 hok2
      refine ⟨d2, hstep.trans hrun, ?_⟩
      intro k
      rw [hlook k]
      by_cases hkr : k ∈ rest
      · have hkns : ¬ k = ns := fun hh => hnotin (hh ▸ hkr)
        rw [if_pos hkr, if_pos (List.mem_cons_of_mem ns hkr),
          dget_dset, if_neg hkns]
      · by_cases hkn : k = ns
        · subst hkn
          rw [if_neg hkr, if_pos (List.mem_cons_self k rest), dget_dset, if_pos rfl]
        · rw [if_neg hkr, dget_dset, if_neg hkn,
            if_neg (fun hc => (List.mem_cons.mp hc).elim hkn hkr)]

/-- The inner delete loop of `clear_cache` is a no-op when the namespace is a
dict containing none of the listed variable keys. -/
theorem innerVarLoop_noop {ns : String} {m : Dict} :
    ∀ (vks : List String) (data : Dict), dget? data ns = some (.vdict m) →
      (∀ v ∈ vks, dget? m v = none) →
      innerVarLoop data ns vks = .ok data := by
  intro vks
  induction vks with
  | nil => intro data _ _; rfl
  | cons v vs ih =>
      intro data hm habs
      have h1 : derase m v = m := derase_noop (habs v (List.mem_cons_self v vs))
      have h2 : dset data ns (.vdict m) = data := dset_self hm
      rw [show innerVarLoop data ns (v :: vs) =
          innerVarLoop (dset data ns (.vdict (derase m v))) ns vs from by
        simp [innerVarLoop, hm]]
      rw [h1, h2]
      exact ih data hm (fun x hx => habs x (List.mem_cons_of_mem _ hx))

/-- The outer delete loop of `clear_cache`'s `elif variables:` branch is a
no-op (and raises nothing) when every visited namespace is a dict containing
none of the listed variable keys. -/
theorem clearVarsLoop_noop {vks : List String} :
    ∀ (ks : List String) (data : Dict),
      (∀ ns ∈ ks, ∃ m, dget? data ns = some (.vdict m) ∧ ∀ v ∈ vks, dget? m v = none) →
      clearVarsLoop data vks ks = .ok data := by
  intro ks
  induction ks with
  | nil => intro data _; rfl
  | cons ns rest ih =>
      intro data h
      obtain ⟨m, hm, habs⟩ := h ns (List.mem_cons_self ns rest)
      have h1 := innerVarLoop_noop vks data hm habs
      rw [show clearVarsLoop data vks (ns :: rest) =
          innerVarLoop data ns vks >>= fun data2 => clearVarsLoop data2 vks rest from rfl]
      rw [h1]
      show clearVarsLoop data vks rest = .ok data
      exact ih data (fun x hx => h x (List.mem_cons_of_mem _ hx))

/-! ### Router registration lemma -/

/-- Folding `add_app` without the `initial_page` flag appends the pages in
order and never touches the initial page. -/
theorem addAppList_spec {F : Type} : ∀ (calls : List (String × F)) (mp : MultiPage F),
    (addAppList mp calls).apps = mp.apps ++ calls.map (fun c => App.mk c.1 c.2)
    ∧ (addAppList mp calls).initial_page = mp.initial_page := by
  intro calls
  induction calls with
  | nil => intro mp; simp [addAppList]
  | cons c cs ih =>
      intro mp
      have hstep : addAppList mp (c :: cs) = addAppList (mp.add_app c.1 c.2 false) cs := rfl
      have hadd : mp.add_app c.1 c.2 false =
          { mp with apps := mp.apps ++ [App.mk c.1 c.2] } := by
        simp [MultiPage.add_app]
      rw [hstep, hadd]
      constructor
      · rw [(ih _).1]
        simp
      · exact (ih _).2

/-! ### Claims -/

/-- C3 (code_bug evidence): starting from no cache file, `change_page(0)`
followed by `change_page(1)` persists a mapping whose top-level entry
`"current_page"` is the integer 0 — not a mapping — because `save` writes
back `load()`'s result, which copied the `"global"` namespace's entries to
the top level.  This violates the stated data-model invariant that the
persisted data is a mapping of namespace to mapping of string to value and
nothing else. -/
theorem C3_flattened_global_persisted :
    (StateManager.change_page FileContent.absent 0 >>= fun fc1 =>
      StateManager.change_page fc1 1)
      = Except.ok (FileContent.stored
          [("global", Val.vdict [("current_page", Val.vint 1)]),
           ("current_page", Val.vint 0)])
    ∧ isDictAt
        [("global", Val.vdict [("current_page", Val.vint 1)]),
         ("current_page", Val.vint 0)] "current_page" = false :=
  ⟨rfl, rfl⟩

/-- C4 counterexample: a cache file that exists but fails to unpickle with an
error other than `EOFError` makes `load()` raise instead of returning an
empty mapping. -/
theorem C4_counterexample :
    StateManager.load FileContent.corrupt = Except.error PyErr.unpicklingError :=
  rfl

/-- C4 (amended): only an `EOFError` during unpickling (an empty or truncated
cache file) is silently treated as an empty state, both by `_load` and by
`load`; a missing file also loads as empty; any other deserialization
failure propagates as an exception. -/
theorem C4_read_failure_behavior :
    StateManager._load FileContent.emptyFile = Except.ok []
    ∧ StateManager.load FileContent.emptyFile = Except.ok []
    ∧ StateManager.load FileContent.absent = Except.ok []
    ∧ StateManager.load FileContent.corrupt = Except.error PyErr.unpicklingError :=
  ⟨rfl, rfl, rfl, rfl⟩

/-- C5 counterexample: `load()` of a stored mapping whose only namespace is
`"global"` returns an extra top-level entry `"current_page"` that is not
among the stored namespaces. -/
theorem C5_counterexample :
    StateManager.load (.stored [("global", Val.vdict [("current_page", Val.vint 0)])])
      = Except.ok [("global", Val.vdict [("current_page", Val.vint 0)]),
                   ("current_page", Val.vint 0)]
    ∧ dget? [("global", Val.vdict [("current_page", Val.vint 0)])] "current_page" = none :=
  ⟨rfl, rfl⟩

/-- C5 (amended): `load()` re-reads the stored mapping in full and returns it
updated with the key/value pairs of the `"global"` namespace copied to the
top level: a key bound in `"global"` looks up to its `"global"` value, and
every other key looks up to its stored binding, so the top-level keys are
the stored namespaces together with the stored `"global"` keys. -/
theorem C5_load_returns_stored_with_global_copies (d g : Dict)
    (hg : dget? d "global" = some (.vdict g)) (hgnd : nodupKeys g) :
    StateManager.load (.stored d) = .ok (dupdate d g)
    ∧ ∀ k, dget? (dupdate d g) k =
        (match dget? g k with
         | some v => some v
         | none => dget? d k)
    ∧ ((dget? (dupdate d g) k).isSome = true ↔ k ∈ dkeys d ∨ k ∈ dkeys g) := by
  refine ⟨load_stored (Or.inl hg), fun k => ⟨dget_dupdate g hgnd d k, ?_⟩⟩
  rw [dget_dupdate g hgnd d k]
  cases hgk : dget? g k with
  | some v =>
      simp only [Option.isSome_some, true_iff]
      exact Or.inr (isSome_dget_iff_mem.mp (by rw [hgk]; rfl))
  | none =>
      constructor
      · intro h
        exact Or.inl (isSome_dget_iff_mem.mp h)
      · rintro (h | h)
        · exact isSome_dget_iff_mem.mpr h
        · have h2 := isSome_dget_iff_mem.mpr h
          rw [hgk] at h2
          cases h2

/-- C5 witness: the amended load theorem at a concrete one-namespace state. -/
theorem C5_witness :
    StateManager.load (.stored [("global", Val.vdict [("current_page", Val.vint 0)])])
      = Except.ok [("global", Val.vdict [("current_page", Val.vint 0)]),
                   ("current_page", Val.vint 0)] :=
  (C5_load_returns_stored_with_global_copies
    [("global", Val.vdict [("current_page", Val.vint 0)])]
    [("current_page", Val.vint 0)] rfl (by decide)).1

/-- C7 (confirmed): registering pages with `add_app` and no `initial_page`
flag appends each page, with exactly its given name and function, to the end
of the ordered page list, leaving the initial page untouched; hence the page
registered n-th from an empty router sits at index n-1.  The "current page"
consumed by `_run` is the plain integer produced by `read_current_page` and
used to subscript this list. -/
theorem C7_add_app_appends_in_order {F : Type} (mp : MultiPage F)
    (calls : List (String × F)) (i : Nat) :
    (addAppList mp calls).apps = mp.apps ++ calls.map (fun c => App.mk c.1 c.2)
    ∧ (addAppList mp calls).initial_page = mp.initial_page
    ∧ (addAppList (MultiPage.mk [] none) calls).apps.get? i
        = (calls.get? i).map (fun c => App.mk c.1 c.2) := by
  refine ⟨(addAppList_spec calls mp).1, (addAppList_spec calls mp).2, ?_⟩
  rw [(addAppList_spec calls (MultiPage.mk [] none)).1]
  simp [List.get?_map]

/-- C8 (confirmed): `save` with a falsy `variables` argument (None or the
empty dict) hits the `if not variables: return` guard before any file read
or write, so it succeeds and the persisted state is unchanged. -/
theorem C8_save_falsy_noop (fc : FileContent) (ns : Option (List String)) :
    StateManager.save fc none ns = Except.ok fc
    ∧ StateManager.save fc (some []) ns = Except.ok fc :=
  ⟨rfl, rfl⟩

/-- C9 (confirmed): while no initial page is set, `add_app` with
`initial_page=True` records `App("__INITIALPAGE__", func)` as the initial
page without appending to the page list; once the initial page is set (an
`App` NamedTuple is always truthy), every later `initial_page=True` call
appends an ordinary page under its given name and leaves the initial page
as first set. -/
theorem C9_only_first_initial_page {F : Type} (mp : MultiPage F)
    (n1 n2 : String) (f1 f2 : F) (h : mp.initial_page = none) :
    ((mp.add_app n1 f1 true).initial_page = some (App.mk "__INITIALPAGE__" f1)
      ∧ (mp.add_app n1 f1 true).apps = mp.apps)
    ∧ (((mp.add_app n1 f1 true).add_app n2 f2 true).apps = mp.apps ++ [App.mk n2 f2]
      ∧ ((mp.add_app n1 f1 true).add_app n2 f2 true).initial_page
          = some (App.mk "__INITIALPAGE__" f1)) := by
  have h1 : mp.add_app n1 f1 true =
      { mp with initial_page := some (App.mk "__INITIALPAGE__" f1) } := by
    simp [MultiPage.add_app, h]
  constructor
  · rw [h1]
    exact ⟨rfl, rfl⟩
  · rw [h1]
    constructor
    · simp [MultiPage.add_app]
    · simp [MultiPage.add_app]

/-- C9 witness: the two registrations at a concrete empty router. -/
theorem C9_witness :
    ((MultiPage.mk ([] : List (App Nat)) none).add_app "a" 7 true).initial_page
        = some (App.mk "__INITIALPAGE__" 7)
    ∧ (((MultiPage.mk ([] : List (App Nat)) none).add_app "a" 7 true).add_app "b" 8 true).apps
        = [App.mk "b" 8] := by
  have h := C9_only_first_initial_page (MultiPage.mk ([] : List (App Nat)) none)
    "a" "b" 7 8 rfl
  exact ⟨h.1.1, by simpa using h.2.1⟩

/-- C6 counterexample: from the well-formed persisted state
`{"global": {"current_page": 0}}` (every namespace a mapping), a
`clear_cache(variables={"x": 1})` naming only the absent variable `"x"`
raises `TypeError` instead of skipping it: the loaded state contains the
flattened top-level copy `"current_page" ↦ 0`, and `del data["current_page"]["x"]`
on the integer is a `TypeError`, which the `except KeyError` handler does
not catch. -/
theorem C6_counterexample :
    allValuesDicts [("global", Val.vdict [("current_page", Val.vint 0)])] = true
    ∧ StateManager.clear_cache
        (.stored [("global", Val.vdict [("current_page", Val.vint 0)])])
        (some [("x", Val.vint 1)]) none false
      = Except.error PyErr.typeError :=
  ⟨rfl, rfl⟩

/-- C6 (amended): missing keys are skipped, with qualifications forced by the
`"global"` flattening in `load`.  For a stored state whose `"global"` entry
is a dict `g` (or absent) not shadowing itself: (a) when `g` lacks
`"current_page"`, `read_current_page()` returns 0 without raising; (b)
`clear_cache` naming only namespaces absent from the loaded state skips them
without raising and persists the loaded state (the stored state with
`"global"` entries flattened on top, not the untouched file); (c)
`clear_cache` naming variables absent from every namespace skips them
without raising — provided every top-level value of the loaded state is a
mapping — and persists the loaded state. -/
theorem C6_missing_keys_skipped (d g : Dict) (nsl : List String) (varsd : Dict)
    (hg : dget? d "global" = some (.vdict g) ∨ (dget? d "global" = none ∧ g = []))
    (hgg : "global" ∉ dkeys g) :
    (dget? g "current_page" = none →
        StateManager.read_current_page (.stored d) = Except.ok 0)
    ∧ ((∀ n ∈ nsl, dget? (dupdate d g) n = none) →
        StateManager.clear_cache (.stored d) none (some nsl) false
          = Except.ok (.stored (dupdate d g)))
    ∧ (allValuesDicts (dupdate d g) = true →
        varAbsentAll (dupdate d g) (dkeys varsd) = true →
        StateManager.clear_cache (.stored d) (some varsd) none false
          = Except.ok (.stored (dupdate d g))) := by
  have hl := load_stored hg
  have hglob : dget? (dupdate d g) "global" = dget? d "global" :=
    dget_dupdate_not_mem g "global" hgg d
  refine ⟨?_, ?_, ?_⟩
  · intro hcp
    have hgd : (dget? (dupdate d g) "global").getD (.vdict []) = .vdict g := by
      rw [hglob]
      rcases hg with h | ⟨h, rfl⟩
      · rw [h]; rfl
      · rw [h]; rfl
    simp only [StateManager.read_current_page, hl, Bind.bind, Except.bind, hgd,
      pyContains, hcp]
    rfl
  · intro habs
    cases nsl with
    | nil =>
        simp only [StateManager.clear_cache, hl, Bind.bind, Except.bind]
        rfl
    | cons n ns =>
        have hfold : List.foldl derase (dupdate d g) (n :: ns) = dupdate d g :=
          foldl_derase_noop (n :: ns) (dupdate d g) habs
        simp only [StateManager.clear_cache, hl, Bind.bind, Except.bind, optTruthyL,
      optTruthyD, Option.getD_some, hfold]
        rfl
  · intro hall habs
    cases varsd with
    | nil =>
        simp only [StateManager.clear_cache, hl, Bind.bind, Except.bind]
        rfl
    | cons p ps =>
        have hloop : clearVarsLoop (dupdate d g) (dkeys (p :: ps)) (dkeys (dupdate d g))
            = Except.ok (dupdate d g) := by
          apply clearVarsLoop_noop
          intro ns hns
          obtain ⟨v, hv⟩ := Option.isSome_iff_exists.mp (isSome_dget_iff_mem.mpr hns)
          have hmem := dget_mem hv
          have hdict : v.isDict = true := by
            have := List.all_eq_true.mp hall _ hmem
            exact this
          cases v with
          | vdict m =>
              refine ⟨m, hv, ?_⟩
              intro x hx
              have h2 := List.all_eq_true.mp habs _ hmem
              simp only at h2
              have h3 := List.all_eq_true.mp h2 x hx
              exact Option.isNone_iff_eq_none.mp h3
          | vint n => cases hdict
          | vstr s => cases hdict
          | vbool b => cases hdict
          | vnone => cases hdict
        simp only [StateManager.clear_cache, hl, Bind.bind, Except.bind, optTruthyL,
      optTruthyD, Option.getD_some, hloop]
        rfl

/-- C6 witness: the three amended clauses at a concrete one-namespace state
without a `"global"` namespace (so the loaded state equals the stored one). -/
theorem C6_witness :
    StateManager.read_current_page (.stored [("s", Val.vdict [("a", Val.vint 2)])])
      = Except.ok 0
    ∧ StateManager.clear_cache (.stored [("s", Val.vdict [("a", Val.vint 2)])])
        none (some ["zz"]) false
      = Except.ok (.stored [("s", Val.vdict [("a", Val.vint 2)])])
    ∧ StateManager.clear_cache (.stored [("s", Val.vdict [("a", Val.vint 2)])])
        (some [("q", Val.vint 1)]) none false
      = Except.ok (.stored [("s", Val.vdict [("a", Val.vint 2)])]) := by
  have h := C6_missing_keys_skipped [("s", Val.vdict [("a", Val.vint 2)])] []
    ["zz"] [("q", Val.vint 1)] (Or.inr ⟨rfl, rfl⟩) (by decide)
  refine ⟨h.1 rfl, h.2.1 ?_, h.2.2 (by decide) (by decide)⟩
  intro n hn
  rcases List.mem_singleton.mp hn with rfl
  rfl

/-- Evaluation of `is_logged_in` on a stored state whose `"global"` entry is
a dict `g` (or absent) without a `"session"` key: the result is determined by
the stored `"session"` namespace — both `in` tests of its dict when present,
`false` when absent (the `.get('session', '')` default, an empty string,
contains no substring). -/
theorem is_logged_in_eval (d g : Dict)
    (hg : dget? d "global" = some (.vdict g) ∨ (dget? d "global" = none ∧ g = []))
    (hgs : "session" ∉ dkeys g) :
    (∀ sd, dget? d "session" = some (.vdict sd) →
      StateManager.is_logged_in (.stored d)
        = Except.ok ((dget? sd "username").isSome && (dget? sd "token").isSome))
    ∧ (dget? d "session" = none →
      StateManager.is_logged_in (.stored d) = Except.ok false) := by
  have hl := load_stored hg
  have hses : dget? (dupdate d g) "session" = dget? d "session" :=
    dget_dupdate_not_mem g "session" hgs d
  constructor
  · intro sd hsess
    rw [hsess] at hses
    simp only [StateManager.is_logged_in, hl, Bind.bind, Except.bind, hses,
      Option.getD_some, pyContains]
    cases hu : (dget? sd "username").isSome with
    | false => simp [hu]
    | true => simp [hu]
  · intro hsess
    rw [hsess] at hses
    have hfalse : strContains "" "username" = false := rfl
    simp only [StateManager.is_logged_in, hl, Bind.bind, Except.bind, hses,
      Option.getD_none, pyContains, hfalse]
    rfl

/-- C2 counterexample: a logged-in state whose stored current-page index is 5
while only two pages are registered.  There is no page at position 5, yet the
router dispatches (it resets the out-of-range index to 0 and invokes the
first page), so "the dispatched page is the one at position i" fails at
i = 5. -/
theorem C2_counterexample :
    StateManager.is_logged_in
      (.stored [("session", Val.vdict [("username", Val.vstr "u"), ("token", Val.vstr "t")]),
                ("global", Val.vdict [("current_page", Val.vint 5)])])
      = Except.ok true
    ∧ StateManager.read_current_page
        (.stored [("session", Val.vdict [("username", Val.vstr "u"), ("token", Val.vstr "t")]),
                  ("global", Val.vdict [("current_page", Val.vint 5)])])
      = Except.ok 5
    ∧ (MultiPage.mk [App.mk "a" (0 : Nat), App.mk "b" 1] none).apps.get? 5 = none
    ∧ MultiPage._run (MultiPage.mk [App.mk "a" (0 : Nat), App.mk "b" 1] none)
        (.stored [("session", Val.vdict [("username", Val.vstr "u"), ("token", Val.vstr "t")]),
                  ("global", Val.vdict [("current_page", Val.vint 5)])])
      = Except.ok (App.mk "a" (0 : Nat)) :=
  ⟨rfl, rfl, rfl, rfl⟩

/-- C2 (amended): on a run with the user logged in and a non-empty page
list, the router reads the stored current-page index i via the State
Manager; when 0 ≤ i < len(pages) it invokes the page at position i, and when
i ≥ len(pages) it resets the index to 0 and invokes the first page. -/
theorem C2_dispatch_by_stored_index {F : Type} (mp : MultiPage F)
    (d g sd : Dict) (i : Int)
    (hg : dget? d "global" = some (.vdict g))
    (hgg : "global" ∉ dkeys g)
    (hgs : "session" ∉ dkeys g)
    (hsess : dget? d "session" = some (.vdict sd))
    (hu : (dget? sd "username").isSome = true)
    (ht : (dget? sd "token").isSome = true)
    (hcp : dget? g "current_page" = some (.vint i))
    (hi : 0 ≤ i)
    (hne : mp.apps ≠ []) :
    StateManager.is_logged_in (.stored d) = Except.ok true
    ∧ ∃ a, mp.apps.get? (if i < (mp.apps.length : Int) then i.toNat else 0) = some a
        ∧ MultiPage._run mp (.stored d) = Except.ok a := by
  have hli : StateManager.is_logged_in (.stored d) = Except.ok true := by
    rw [(is_logged_in_eval d g (Or.inl hg) hgs).1 sd hsess, hu, ht]
    rfl
  have hl := load_stored (Or.inl hg)
  have hgd : (dget? (dupdate d g) "global").getD (.vdict []) = .vdict g := by
    rw [dget_dupdate_not_mem g "global" hgg d, hg]
    rfl
  have hrcp : StateManager.read_current_page (.stored d) = Except.ok i := by
    simp only [StateManager.read_current_page, hl, Bind.bind, Except.bind, hgd,
      pyContains, hcp, Option.isSome_some, pyGetItem, pyInt]
    rfl
  refine ⟨hli, ?_⟩
  by_cases hlt : i < (mp.apps.length : Int)
  · have htn : i.toNat < mp.apps.length := by omega
    refine ⟨mp.apps.get ⟨i.toNat, htn⟩, ?_, ?_⟩
    · rw [if_pos hlt]
      exact List.get?_eq_get htn
    · simp only [MultiPage._run, hli, Bind.bind, Except.bind, if_true, hrcp,
        if_neg (not_le.mpr hlt)]
      simp only [pyListGet, pyNormIdx, if_neg (not_lt.mpr hi)]
      rw [List.get?_eq_get htn]
  · cases happs : mp.apps with
    | nil => exact absurd happs hne
    | cons a0 rest =>
        rw [happs] at hlt
        refine ⟨a0, ?_, ?_⟩
        · rw [if_neg hlt]
          rfl
        · simp only [MultiPage._run, hli, Bind.bind, Except.bind, if_true, hrcp, happs]
          rw [if_pos (not_lt.mp hlt)]
          rfl

/-- C2 witness: the amended dispatch theorem at a concrete logged-in state
with stored index 1 and two pages. -/
theorem C2_witness :
    MultiPage._run (MultiPage.mk [App.mk "a" (0 : Nat), App.mk "b" 1] none)
      (.stored [("session", Val.vdict [("username", Val.vstr "u"), ("token", Val.vstr "t")]),
                ("global", Val.vdict [("current_page", Val.vint 1)])])
      = Except.ok (App.mk "b" (1 : Nat)) := by
  obtain ⟨-, a, ha, h2⟩ := C2_dispatch_by_stored_index
    (MultiPage.mk [App.mk "a" (0 : Nat), App.mk "b" 1] none)
    [("session", Val.vdict [("username", Val.vstr "u"), ("token", Val.vstr "t")]),
     ("global", Val.vdict [("current_page", Val.vint 1)])]
    [("current_page", Val.vint 1)]
    [("username", Val.vstr "u"), ("token", Val.vstr "t")]
    1 rfl (by decide) (by decide) rfl rfl rfl rfl (by decide) (by simp)
  have hb : some (App.mk "b" (1 : Nat)) = some a := by
    rw [← ha]
    rfl
  injection hb with hab
  rw [← hab] at h2
  exact h2

/-- The keys written by `login` are distinct. -/
theorem nodup_login_keys (u t : String) :
    nodupKeys [("username", Val.vstr u), ("token", Val.vstr t)] := by
  show (["username", "token"] : List String).Nodup
  decide

/-- C10 counterexample: a persisted state with no `"session"` namespace at
all, whose `"global"` namespace binds `"session"` to the string
`"username token"`.  `load()` copies that string to the top level, `.get`
returns it, and both `in` tests succeed as substring tests, so
`is_logged_in()` returns True although the persisted `"session"` namespace
does not exist. -/
theorem C10_counterexample :
    StateManager.is_logged_in
      (.stored [("global", Val.vdict [("session", Val.vstr "username token")])])
      = Except.ok true
    ∧ dget? [("global", Val.vdict [("session", Val.vstr "username token")])] "session"
      = none :=
  ⟨rfl, rfl⟩

/-- C10 (amended): for a persisted state whose `"global"` namespace is a
dict (or absent) that shadows neither itself nor `"session"`, and whose
`"session"` entry is absent or a dict: `is_logged_in()` returns true if and
only if the persisted `"session"` namespace exists and contains both the
keys `"username"` and `"token"`; and `login(username, token)` succeeds from
such a state and `is_logged_in()` is true on the state it persists. -/
theorem C10_is_logged_in_iff (d g : Dict) (u t : String)
    (hg : dget? d "global" = some (.vdict g) ∨ (dget? d "global" = none ∧ g = []))
    (hgg : "global" ∉ dkeys g)
    (hgs : "session" ∉ dkeys g)
    (hsd : optIsDictOrNone (dget? d "session") = true) :
    (StateManager.is_logged_in (.stored d) = Except.ok true ↔
      ∃ sd, dget? d "session" = some (.vdict sd)
        ∧ (dget? sd "username").isSome = true ∧ (dget? sd "token").isSome = true)
    ∧ ∃ fc2, MultiPage.login (.stored d) u t = Except.ok fc2
        ∧ StateManager.is_logged_in fc2 = Except.ok true := by
  have hl := load_stored hg
  have hses1 : dget? (dupdate d g) "session" = dget? d "session" :=
    dget_dupdate_not_mem g "session" hgs d
  have hglob1 : dget? (dupdate d g) "global" = dget? d "global" :=
    dget_dupdate_not_mem g "global" hgg d
  constructor
  · -- the iff
    cases hses : dget? d "session" with
    | none =>
        have hfalse := (is_logged_in_eval d g hg hgs).2 hses
        constructor
        · intro h
          rw [hfalse] at h
          simp at h
        · rintro ⟨sd, hsd2, -, -⟩
          exact Option.noConfusion hsd2
    | some v =>
        have hv : v.isDict = true := by
          rw [hses] at hsd
          exact hsd
        cases v with
        | vdict sd =>
            have heval := (is_logged_in_eval d g hg hgs).1 sd hses
            constructor
            · intro h
              rw [heval] at h
              have hb := Except.ok.inj h
              rw [Bool.and_eq_true] at hb
              exact ⟨sd, rfl, hb.1, hb.2⟩
            · rintro ⟨sd2, hsd2, hu2, ht2⟩
              injection hsd2 with h3
              injection h3 with h4
              rw [← h4] at hu2 ht2
              rw [heval, hu2, ht2]
              rfl
        | vint n => exact Bool.noConfusion hv
        | vstr s => exact Bool.noConfusion hv
        | vbool b => exact Bool.noConfusion hv
        | vnone => exact Bool.noConfusion hv
  · -- login then is_logged_in
    obtain ⟨d2, hrun2, hlook2⟩ := saveLoop_ok
      [("username", Val.vstr u), ("token", Val.vstr t)] ["session"] (dupdate d g)
      (by simp)
      (by
        intro n hn
        rcases List.mem_singleton.mp hn with rfl
        rw [hses1]
        exact hsd)
    have hsave : StateManager.save (.stored d)
        (some [("username", Val.vstr u), ("token", Val.vstr t)]) (some ["session"])
        = Except.ok (.stored d2) := by
      have hdef : StateManager.save (.stored d)
          (some [("username", Val.vstr u), ("token", Val.vstr t)]) (some ["session"])
          = (StateManager.load (.stored d) >>= fun data =>
              saveLoop data [("username", Val.vstr u), ("token", Val.vstr t)] ["session"]
                >>= fun d4 => Except.ok (FileContent.stored d4)) := rfl
      rw [hdef, hl]
      show (saveLoop (dupdate d g) [("username", Val.vstr u), ("token", Val.vstr t)] ["session"]
          >>= fun d4 => Except.ok (FileContent.stored d4)) = _
      rw [hrun2]
      rfl
    have hd2g : dget? d2 "global" = dget? d "global" := by
      rw [hlook2 "global", if_neg (by decide : ¬ "global" ∈ ["session"]), hglob1]
    have hd2s : dget? d2 "session"
        = some (.vdict (updOf (dget? d "session") [("username", Val.vstr u), ("token", Val.vstr t)])) := by
      rw [hlook2 "session", if_pos (List.mem_singleton.mpr rfl), hses1]
    have hg2 : dget? d2 "global" = some (.vdict g) ∨ (dget? d2 "global" = none ∧ g = []) := by
      rw [hd2g]
      exact hg
    have hl2 := load_stored hg2
    have hglob2 : dget? (dupdate d2 g) "global" = dget? d "global" := by
      rw [dget_dupdate_not_mem g "global" hgg d2, hd2g]
    have hses2 : dget? (dupdate d2 g) "session" = dget? d2 "session" :=
      dget_dupdate_not_mem g "session" hgs d2
    obtain ⟨d3, hrun3, hlook3⟩ := saveLoop_ok
      [("current_page", Val.vint 0)] ["global"] (dupdate d2 g)
      (by simp)
      (by
        intro n hn
        rcases List.mem_singleton.mp hn with rfl
        rw [hglob2]
        rcases hg with h | ⟨h, -⟩ <;> rw [h] <;> rfl)
    have hcpage : StateManager.change_page (.stored d2) 0 = Except.ok (.stored d3) := by
      have hdef : StateManager.change_page (.stored d2) 0
          = (StateManager.load (.stored d2) >>= fun data =>
              saveLoop data [("current_page", Val.vint 0)] ["global"]
                >>= fun d4 => Except.ok (FileContent.stored d4)) := rfl
      rw [hdef, hl2]
      show (saveLoop (dupdate d2 g) [("current_page", Val.vint 0)] ["global"]
          >>= fun d4 => Except.ok (FileContent.stored d4)) = _
      rw [hrun3]
      rfl
    have hlogin : MultiPage.login (.stored d) u t = Except.ok (.stored d3) := by
      have hdef : MultiPage.login (.stored d) u t
          = (StateManager.save (.stored d)
              (some [("username", Val.vstr u), ("token", Val.vstr t)]) (some ["session"])
              >>= fun fc2 => StateManager.change_page fc2 0) := rfl
      rw [hdef, hsave]
      show StateManager.change_page (.stored d2) 0 = _
      exact hcpage
    have hd3g : dget? d3 "global"
        = some (.vdict (updOf (dget? (dupdate d2 g) "global") [("current_page", Val.vint 0)])) := by
      rw [hlook3 "global", if_pos (List.mem_singleton.mpr rfl)]
    have hgs3 : "session" ∉ dkeys (updOf (dget? (dupdate d2 g) "global") [("current_page", Val.vint 0)]) := by
      rw [hglob2]
      rcases hg with h | ⟨h, hge⟩
      · rw [h]
        intro hmem
        rcases mem_dkeys_dupdate [("current_page", Val.vint 0)] g "session" hmem with h2 | h2
        · exact hgs h2
        · simp [dkeys] at h2
      · rw [h]
        intro hmem
        simp [updOf, dkeys] at hmem
    have hd3s : dget? d3 "session"
        = some (.vdict (updOf (dget? d "session") [("username", Val.vstr u), ("token", Val.vstr t)])) := by
      rw [hlook3 "session", if_neg (by decide : ¬ "session" ∈ ["global"]), hses2, hd2s]
    have heval3 := (is_logged_in_eval d3
      (updOf (dget? (dupdate d2 g) "global") [("current_page", Val.vint 0)])
      (Or.inl hd3g) hgs3).1 _ hd3s
    have hSu : (dget? (updOf (dget? d "session") [("username", Val.vstr u), ("token", Val.vstr t)]) "username").isSome = true := by
      cases hses : dget? d "session" with
      | none => rfl
      | some v =>
          have hv : v.isDict = true := by rw [hses] at hsd; exact hsd
          cases v with
          | vdict sd =>
              show (dget? (dupdate sd [("username", Val.vstr u), ("token", Val.vstr t)]) "username").isSome = true
              rw [dget_dupdate [("username", Val.vstr u), ("token", Val.vstr t)] (nodup_login_keys u t) sd "username"]
              rfl
          | vint n => exact Bool.noConfusion hv
          | vstr s => exact Bool.noConfusion hv
          | vbool b => exact Bool.noConfusion hv
          | vnone => exact Bool.noConfusion hv
    have hSt : (dget? (updOf (dget? d "session") [("username", Val.vstr u), ("token", Val.vstr t)]) "token").isSome = true := by
      cases hses : dget? d "session" with
      | none => rfl
      | some v =>
          have hv : v.isDict = true := by rw [hses] at hsd; exact hsd
          cases v with
          | vdict sd =>
              show (dget? (dupdate sd [("username", Val.vstr u), ("token", Val.vstr t)]) "token").isSome = true
              rw [dget_dupdate [("username", Val.vstr u), ("token", Val.vstr t)] (nodup_login_keys u t) sd "token"]
              rfl
          | vint n => exact Bool.noConfusion hv
          | vstr s => exact Bool.noConfusion hv
          | vbool b => exact Bool.noConfusion hv
          | vnone => exact Bool.noConfusion hv
    refine ⟨.stored d3, hlogin, ?_⟩
    rw [heval3, hSu, hSt]
    rfl

/-- C10 witness: the amended theorem's iff (right to left) at a concrete
state whose session namespace holds both keys. -/
theorem C10_witness :
    StateManager.is_logged_in
      (.stored [("session", Val.vdict [("username", Val.vstr "u"), ("token", Val.vstr "t")])])
      = Except.ok true :=
  (C10_is_logged_in_iff
    [("session", Val.vdict [("username", Val.vstr "u"), ("token", Val.vstr "t")])]
    [] "u" "t" (Or.inr ⟨rfl, rfl⟩) (by decide) (by decide) (by decide)).1.mpr
    ⟨[("username", Val.vstr "u"), ("token", Val.vstr "t")], rfl, rfl, rfl⟩

/-- C1 counterexample: saving the non-empty dict `{"global": 5}` to the
non-empty namespace list `["global"]` from an empty state, then loading,
yields a mapping in which the listed namespace `"global"` is bound to the
integer 5 — not to a dictionary containing the pair — because `load` copies
the `"global"` namespace's entries over the top level, clobbering the
namespace itself. -/
theorem C1_counterexample :
    save_then_load FileContent.absent (some [("global", Val.vint 5)]) (some ["global"])
      = Except.ok [("global", Val.vint 5)]
    ∧ isDictAt [("global", Val.vint 5)] "global" = false :=
  ⟨rfl, rfl⟩

/-- C1 (amended): for every non-empty variables dict and namespace list, the
save-then-load round trip maps each listed namespace to a dictionary that
contains every key/value pair of the variables and retains the namespace's
pre-existing keys that are not in the variables — provided no listed
namespace is shadowed by a key of the stored `"global"` namespace, or (when
`"global"` is itself listed) by a key of the variables, and the stored
`"global"` namespace does not shadow itself. -/
theorem C1_save_load_roundtrip (d g vars : Dict) (nss : List String) (ns k : String)
    (hg : dget? d "global" = some (.vdict g) ∨ (dget? d "global" = none ∧ g = []))
    (hgg : "global" ∉ dkeys g)
    (hvnd : nodupKeys vars)
    (hvne : vars ≠ [])
    (hok : ∀ n ∈ nss, optIsDictOrNone (dget? d n) = true)
    (hsh1 : ∀ n ∈ nss, n ∉ dkeys g)
    (hsh2 : "global" ∈ nss → ∀ n ∈ nss, n ∉ dkeys vars)
    (hns : ns ∈ nss) :
    ∃ res, save_then_load (.stored d) (some vars) (some nss) = Except.ok res
      ∧ ∃ m, dget? res ns = some (.vdict m)
        ∧ dget? m k = (match dget? vars k with
            | some v => some v
            | none => dget2 d ns k) := by
  cases vars with
  | nil => exact absurd rfl hvne
  | cons v0 vr =>
  have hl := load_stored hg
  have hd1 : ∀ n ∈ nss, dget? (dupdate d g) n = dget? d n := fun n hn =>
    dget_dupdate_not_mem g n (hsh1 n hn) d
  obtain ⟨d2, hrun, hlook⟩ := saveLoop_ok (v0 :: vr) (dedupFirst nss) (dupdate d g)
    (dedupFirst_nodup nss)
    (by
      intro n hn
      have hn2 := (dedupFirst_mem nss n).mp hn
      rw [hd1 n hn2]
      exact hok n hn2)
  have hsave : StateManager.save (.stored d) (some (v0 :: vr)) (some nss)
      = Except.ok (.stored d2) := by
    have hdef : StateManager.save (.stored d) (some (v0 :: vr)) (some nss)
        = (StateManager.load (.stored d) >>= fun data =>
            saveLoop data (v0 :: vr) (dedupFirst nss)
              >>= fun d4 => Except.ok (FileContent.stored d4)) := rfl
    rw [hdef, hl]
    show (saveLoop (dupdate d g) (v0 :: vr) (dedupFirst nss)
        >>= fun d4 => Except.ok (FileContent.stored d4)) = _
    rw [hrun]
    rfl
  have hglobal2 : ∃ g2,
      (dget? d2 "global" = some (.vdict g2) ∨ (dget? d2 "global" = none ∧ g2 = []))
      ∧ ns ∉ dkeys g2 := by
    by_cases hgin : "global" ∈ nss
    · refine ⟨updOf (dget? d "global") (v0 :: vr), Or.inl ?_, ?_⟩
      · rw [hlook "global", if_pos ((dedupFirst_mem nss "global").mpr hgin),
          hd1 "global" hgin]
      · rcases hg with h | ⟨h, -⟩
        · rw [h]
          show ns ∉ dkeys (dupdate g (v0 :: vr))
          intro hmem
          rcases mem_dkeys_dupdate (v0 :: vr) g ns hmem with h2 | h2
          · exact hsh1 ns hns h2
          · exact hsh2 hgin ns hns h2
        · rw [h]
          show ns ∉ dkeys (v0 :: vr)
          exact hsh2 hgin ns hns
    · refine ⟨g, ?_, hsh1 ns hns⟩
      have hsame : dget? d2 "global" = dget? d "global" := by
        rw [hlook "global", if_neg (fun hc => hgin ((dedupFirst_mem nss "global").mp hc)),
          dget_dupdate_not_mem g "global" hgg d]
      rw [hsame]
      exact hg
  obtain ⟨g2, hg2, hnsg2⟩ := hglobal2
  have hl2 := load_stored hg2
  have hfinal : save_then_load (.stored d) (some (v0 :: vr)) (some nss)
      = Except.ok (dupdate d2 g2) := by
    have hdef : save_then_load (.stored d) (some (v0 :: vr)) (some nss)
        = (StateManager.save (.stored d) (some (v0 :: vr)) (some nss)
            >>= StateManager.load) := rfl
    rw [hdef, hsave]
    show StateManager.load (.stored d2) = _
    exact hl2
  refine ⟨dupdate d2 g2, hfinal, ?_⟩
  have hres : dget? (dupdate d2 g2) ns = dget? d2 ns :=
    dget_dupdate_not_mem g2 ns hnsg2 d2
  have hd2ns : dget? d2 ns = some (.vdict (updOf (dget? d ns) (v0 :: vr))) := by
    rw [hlook ns, if_pos ((dedupFirst_mem nss ns).mpr hns), hd1 ns hns]
  refine ⟨updOf (dget? d ns) (v0 :: vr), by rw [hres, hd2ns], ?_⟩
  have hok_ns := hok ns hns
  unfold dget2
  cases hdns : dget? d ns with
  | none =>
      show dget? (v0 :: vr) k = _
      cases hvk : dget? (v0 :: vr) k with
      | some v => simp [hvk]
      | none => simp [hvk]
  | some v =>
      rw [hdns] at hok_ns
      cases v with
      | vdict m =>
          show dget? (dupdate m (v0 :: vr)) k = _
          rw [dget_dupdate (v0 :: vr) hvnd m k]
      | vint n => exact Bool.noConfusion hok_ns
      | vstr s => exact Bool.noConfusion hok_ns
      | vbool b => exact Bool.noConfusion hok_ns
      | vnone => exact Bool.noConfusion hok_ns

/-- C1 witness: the amended round trip at a concrete state with one existing
namespace, saving one new key into an existing and a fresh namespace. -/
theorem C1_witness :
    save_then_load (.stored [("n1", Val.vdict [("a", Val.vint 1)])])
        (some [("b", Val.vint 2)]) (some ["n1", "n2"])
      = Except.ok [("n1", Val.vdict [("a", Val.vint 1), ("b", Val.vint 2)]),
                   ("n2", Val.vdict [("b", Val.vint 2)])] := by
  obtain ⟨res, h1, -⟩ := C1_save_load_roundtrip
    [("n1", Val.vdict [("a", Val.vint 1)])] [] [("b", Val.vint 2)] ["n1", "n2"] "n1" "a"
    (Or.inr ⟨rfl, rfl⟩) (by decide)
    (by show (["b"] : List String).Nodup; decide)
    (by simp)
    (by decide) (by decide) (by decide)
    (by decide)
  have h2 : Except.ok res
      = Except.ok (ε := PyErr)
          [("n1", Val.vdict [("a", Val.vint 1), ("b", Val.vint 2)]),
           ("n2", Val.vdict [("b", Val.vint 2)])] := h1.symm.trans rfl
  injection h2 with h3
  rw [h3] at h1
  exact h1
